import Mathlib

/-!
Shallow embedding of the todo-list page component in
`src/pages/todo/index.tsx` of the repository.

The component keeps four pieces of React state:
`todos : Todo[]`, `inputValue : string`, `editingId : number | null`,
`editingText : string`.  The handlers `addTodo`, `toggleTodo`,
`deleteTodo`, `startEdit`, `cancelEdit` and `saveEdit` are pure state
transformers once the `useState` setters are read as explicit state
passing, and `Date.now()` is modelled as an explicit clock argument
`now : Nat` to `addTodo`.  The derived statistics are the three
expressions rendered at the bottom of the page.
-/

/-- The `Todo` record type of the source (`type Todo = {id; text; completed}`). -/
structure Todo where
  id : Nat
  text : String
  completed : Bool
deriving DecidableEq, Repr

/-- The component's React state: the four `useState` cells of `TodoPage`. -/
structure TodoState where
  todos : List Todo
  inputValue : String
  editingId : Option Nat
  editingText : String
deriving DecidableEq, Repr

/-- Initial state: `useState<Todo[]>([])`, `useState('')`,
`useState<number | null>(null)`, `useState('')`. -/
def initState : TodoState :=
  { todos := [], inputValue := "", editingId := none, editingText := "" }

/-- Model of JavaScript `String.prototype.trim` (strip leading and
trailing whitespace), written structurally over the character list so
that it evaluates by kernel reduction. -/
def jsTrim (s : String) : String :=
  ⟨((s.data.dropWhile Char.isWhitespace).reverse.dropWhile Char.isWhitespace).reverse⟩

/-- `addTodo` handler.  `Date.now()` is the explicit argument `now`.
Note the source stores `text: inputValue` (the raw, untrimmed input);
`trim` is used only for the emptiness check. -/
def addTodo (now : Nat) (s : TodoState) : TodoState :=
  if jsTrim s.inputValue = "" then s
  else
    { s with
      todos := s.todos ++ [{ id := now, text := s.inputValue, completed := false }],
      inputValue := "" }

/-- `toggleTodo` handler: map over the array, flipping `completed` of any
item whose id matches. -/
def toggleTodo (id : Nat) (s : TodoState) : TodoState :=
  { s with
    todos := s.todos.map fun todo =>
      if todo.id = id then { todo with completed := !todo.completed } else todo }

/-- `deleteTodo` handler: `filter(todo => todo.id !== id)`. -/
def deleteTodo (id : Nat) (s : TodoState) : TodoState :=
  { s with todos := s.todos.filter fun todo => todo.id != id }

/-- `startEdit` handler. -/
def startEdit (id : Nat) (text : String) (s : TodoState) : TodoState :=
  { s with editingId := some id, editingText := text }

/-- `cancelEdit` handler. -/
def cancelEdit (s : TodoState) : TodoState :=
  { s with editingId := none, editingText := "" }

/-- `saveEdit` handler.  As in `addTodo`, the source stores the raw
`editingText`, not its trimmed form; on success it leaves editing mode. -/
def saveEdit (id : Nat) (s : TodoState) : TodoState :=
  if jsTrim s.editingText = "" then s
  else
    { s with
      todos := s.todos.map fun todo =>
        if todo.id = id then { todo with text := s.editingText } else todo,
      editingId := none,
      editingText := "" }

/-- `전체` (total) statistic: `todos.length`. -/
def statsTotal (todos : List Todo) : Nat := todos.length

/-- `완료` (completed) statistic: `todos.filter(t => t.completed).length`. -/
def statsCompleted (todos : List Todo) : Nat :=
  (todos.filter fun t => t.completed).length

/-- `미완료` (remaining) statistic: `todos.filter(t => !t.completed).length`. -/
def statsRemaining (todos : List Todo) : Nat :=
  (todos.filter fun t => !t.completed).length

/-- A user-level operation on the page.  `add` carries the clock reading
used for `Date.now()` and the text typed into the input box; `edit`
carries the text present in the per-item edit box when save is pressed. -/
inductive Op where
  | add (now : Nat) (input : String)
  | toggle (id : Nat)
  | remove (id : Nat)
  | edit (id : Nat) (text : String)
deriving DecidableEq, Repr

/-- Apply one operation: `add` types `input` into the box then presses the
add button, `edit` enters edit mode with `text` pending then presses save. -/
def applyOp (s : TodoState) : Op → TodoState
  | .add now input => addTodo now { s with inputValue := input }
  | .toggle id => toggleTodo id s
  | .remove id => deleteTodo id s
  | .edit id text => saveEdit id (startEdit id text s)

/-- Run a sequence of operations from the initial state. -/
def run (ops : List Op) : TodoState := ops.foldl applyOp initState

/-- States reachable from the empty store by add/toggle/remove/edit. -/
inductive Reachable : TodoState → Prop
  | init : Reachable initState
  | step {s : TodoState} (o : Op) : Reachable s → Reachable (applyOp s o)

/-- States reachable with "fresh" clock readings: every `add` is performed
with a `Date.now()` value that differs from every id already in the list.
This is the hypothesis under which id uniqueness can be maintained. -/
inductive FreshReachable : TodoState → Prop
  | init : FreshReachable initState
  | add {s : TodoState} (now : Nat) (input : String) :
      FreshReachable s → now ∉ s.todos.map Todo.id →
      FreshReachable (applyOp s (.add now input))
  | toggle {s : TodoState} (id : Nat) :
      FreshReachable s → FreshReachable (applyOp s (.toggle id))
  | remove {s : TodoState} (id : Nat) :
      FreshReachable s → FreshReachable (applyOp s (.remove id))
  | edit {s : TodoState} (id : Nat) (text : String) :
      FreshReachable s → FreshReachable (applyOp s (.edit id text))

/-! ### Helper lemmas about the list-level behaviour of the handlers -/

/-- A map whose function fixes every item with a different id is the
identity on a list not containing the id. -/
theorem map_id_of_not_mem {f : Todo → Todo} (id : Nat)
    (hf : ∀ t : Todo, t.id ≠ id → f t = t)
    (l : List Todo) (h : id ∉ l.map Todo.id) : l.map f = l := by
  induction l with
  | nil => rfl
  | cons t ts ih =>
    simp only [List.map_cons, List.mem_cons] at h ⊢
    push_neg at h
    rw [hf t (fun he => h.1 he.symm), ih h.2]

/-- Filtering out an id not present in the list changes nothing. -/
theorem filter_ne_of_not_mem (id : Nat) (l : List Todo)
    (h : id ∉ l.map Todo.id) : (l.filter fun t => t.id != id) = l := by
  induction l with
  | nil => rfl
  | cons t ts ih =>
    simp only [List.map_cons, List.mem_cons] at h
    push_neg at h
    have h1 : ¬t.id = id := fun he => h.1 he.symm
    simp [List.filter_cons, bne_iff_ne, h1, ih h.2]

/-- Mapping an id-preserving function leaves the id list unchanged. -/
theorem ids_map_of_id_eq {f : Todo → Todo} (hf : ∀ t : Todo, (f t).id = t.id)
    (l : List Todo) : (l.map f).map Todo.id = l.map Todo.id := by
  induction l with
  | nil => rfl
  | cons t ts ih => simp [hf t, ih]

/-- Toggling the same id twice is the identity on the item list. -/
theorem toggle_toggle_todos (id : Nat) (s : TodoState) :
    (toggleTodo id (toggleTodo id s)).todos = s.todos := by
  show (s.todos.map _).map _ = s.todos
  rw [List.map_map]
  have : ∀ l : List Todo,
      (l.map fun t =>
        (fun todo => if todo.id = id then { todo with completed := !todo.completed } else todo)
          ((fun todo => if todo.id = id then { todo with completed := !todo.completed } else todo)
            t)) = l := by
    intro l
    induction l with
    | nil => rfl
    | cons t ts ih =>
      obtain ⟨i, x, c⟩ := t
      by_cases h : i = id <;> simp [h, ih]
  exact this s.todos

/-- With pairwise-distinct ids, toggling an id present in the list changes
exactly the one matching item (flipping its `completed` flag). -/
theorem toggle_decomp (id : Nat) (l : List Todo)
    (hnd : (l.map Todo.id).Nodup) (hmem : id ∈ l.map Todo.id) :
    ∃ l₁ t l₂, l = l₁ ++ t :: l₂ ∧ t.id = id ∧
      (l.map fun u => if u.id = id then { u with completed := !u.completed } else u)
        = l₁ ++ { t with completed := !t.completed } :: l₂ := by
  induction l with
  | nil => simp at hmem
  | cons t ts ih =>
    simp only [List.map_cons, List.nodup_cons] at hnd
    simp only [List.map_cons, List.mem_cons] at hmem
    by_cases h : t.id = id
    · refine ⟨[], t, ts, rfl, h, ?_⟩
      have hts : id ∉ ts.map Todo.id := h ▸ hnd.1
      simp only [List.map_cons, if_pos h, List.nil_append]
      rw [map_id_of_not_mem id (fun u hu => if_neg hu) ts hts]
    · have hmem' : id ∈ ts.map Todo.id := by
        rcases hmem with h1 | h1
        · exact absurd h1.symm h
        · exact h1
      obtain ⟨l₁, u, l₂, hdec, hid, hmap⟩ := ih hnd.2 hmem'
      refine ⟨t :: l₁, u, l₂, by rw [hdec]; rfl, hid, ?_⟩
      simp only [List.map_cons, if_neg h, hmap, List.cons_append]

/-- With pairwise-distinct ids, removing an id present in the list drops
exactly one item. -/
theorem length_filter_ne_of_nodup (id : Nat) (l : List Todo)
    (hnd : (l.map Todo.id).Nodup) (hmem : id ∈ l.map Todo.id) :
    (l.filter fun t => t.id != id).length + 1 = l.length := by
  induction l with
  | nil => simp at hmem
  | cons t ts ih =>
    simp only [List.map_cons, List.nodup_cons] at hnd
    simp only [List.map_cons, List.mem_cons] at hmem
    by_cases h : t.id = id
    · have hts : id ∉ ts.map Todo.id := h ▸ hnd.1
      simp [List.filter_cons, bne_iff_ne, h, filter_ne_of_not_mem id ts hts]
    · have hmem' : id ∈ ts.map Todo.id := by
        rcases hmem with h1 | h1
        · exact absurd h1.symm h
        · exact h1
      have hlen := ih hnd.2 hmem'
      simp only [List.filter_cons, bne_iff_ne, ne_eq, h, not_false_eq_true, if_true,
        List.length_cons]
      omega

/-- With pairwise-distinct ids, filtering out an id present in the list
removes exactly the one matching item and keeps every other item in
order. -/
theorem filter_ne_decomp (id : Nat) (l : List Todo)
    (hnd : (l.map Todo.id).Nodup) (hmem : id ∈ l.map Todo.id) :
    ∃ l₁ t l₂, l = l₁ ++ t :: l₂ ∧ t.id = id ∧
      (l.filter fun u => u.id != id) = l₁ ++ l₂ := by
  induction l with
  | nil => simp at hmem
  | cons t ts ih =>
    simp only [List.map_cons, List.nodup_cons] at hnd
    simp only [List.map_cons, List.mem_cons] at hmem
    by_cases h : t.id = id
    · refine ⟨[], t, ts, rfl, h, ?_⟩
      have hts : id ∉ ts.map Todo.id := h ▸ hnd.1
      simp [List.filter_cons, bne_iff_ne, h, filter_ne_of_not_mem id ts hts]
    · have hmem' : id ∈ ts.map Todo.id := by
        rcases hmem with h1 | h1
        · exact absurd h1.symm h
        · exact h1
      obtain ⟨l₁, u, l₂, hdec, hid, hfil⟩ := ih hnd.2 hmem'
      refine ⟨t :: l₁, u, l₂, by rw [hdec]; rfl, hid, ?_⟩
      simp only [List.filter_cons, bne_iff_ne, ne_eq, h, not_false_eq_true, if_true, hfil,
        List.cons_append]

/-- Appending a fresh element to a duplicate-free list keeps it
duplicate-free. -/
theorem nodup_append_singleton {l : List Nat} {a : Nat} (h : l.Nodup) (ha : a ∉ l) :
    (l ++ [a]).Nodup := by
  simp [List.nodup_append, h, ha]

/-- `toggleTodo` leaves the id list unchanged. -/
theorem toggle_ids (id : Nat) (s : TodoState) :
    (toggleTodo id s).todos.map Todo.id = s.todos.map Todo.id := by
  show (s.todos.map _).map Todo.id = _
  exact ids_map_of_id_eq (fun t => by by_cases h : t.id = id <;> simp [h]) s.todos

/-- `saveEdit` leaves the id list unchanged. -/
theorem saveEdit_ids (id : Nat) (s : TodoState) :
    (saveEdit id s).todos.map Todo.id = s.todos.map Todo.id := by
  by_cases hb : jsTrim s.editingText = ""
  · simp [saveEdit, hb]
  · have hs : (saveEdit id s).todos
        = s.todos.map fun t => if t.id = id then { t with text := s.editingText } else t := by
      simp [saveEdit, hb]
    rw [hs]
    exact ids_map_of_id_eq (fun t => by by_cases h : t.id = id <;> simp [h]) s.todos

/-! ### Concrete states used by witnesses and counterexamples -/

/-- A state whose input box holds text with surrounding whitespace. -/
def rawAddState : TodoState := { initState with inputValue := "  a  " }

/-- A state editing item 1 with pending text `"  New  "`. -/
def editCexState : TodoState :=
  { todos := [⟨1, "Old", false⟩], inputValue := "",
    editingId := some 1, editingText := "  New  " }

/-- Two adds that drew the same clock reading 5 (same millisecond). -/
def dupRunC3 : TodoState := run [.add 5 "a", .add 5 "b"]

/-- Two adds that drew the same clock reading 7. -/
def dupRunC4 : TodoState := run [.add 7 "x", .add 7 "y"]

/-- Two adds that drew the same clock reading 9. -/
def dupRunC8 : TodoState := run [.add 9 "a", .add 9 "b"]

/-- Three adds, the first two drawing the same clock reading 4. -/
def dupRunC9 : TodoState := run [.add 4 "p", .add 4 "q", .add 6 "r"]

/-- Two adds with distinct clock readings. -/
def twoItemState : TodoState := run [.add 1 "a", .add 2 "b"]

/-- Two adds with distinct clock readings, first item toggled. -/
def statsState : TodoState := run [.add 1 "A", .add 2 "B", .toggle 1]

/-! ### C1 -/

/-- C1 (amended): for every state and clock reading, when the input text is
non-empty after trimming, `addTodo` appends exactly one item to the end of
the list, with the raw (untrimmed) input as its text, `completed = false`
and the clock reading as its id; all previously present items are
unchanged. -/
theorem C1_add_appends_raw_text (s : TodoState) (now : Nat)
    (h : jsTrim s.inputValue ≠ "") :
    (addTodo now s).todos
      = s.todos ++ [{ id := now, text := s.inputValue, completed := false }] := by
  simp [addTodo, h]

/-- C1 witness: the amended statement at a concrete state. -/
theorem C1_add_witness :
    (addTodo 3 rawAddState).todos
      = rawAddState.todos ++ [{ id := 3, text := "  a  ", completed := false }] :=
  C1_add_appends_raw_text rawAddState 3 (by decide)

/-- C1 counterexample: the claim as stated is false — the appended item's
text is the raw input `"  a  "`, not the trimmed `"a"` the claim requires. -/
theorem C1_trim_counterexample :
    jsTrim "  a  " ≠ "" ∧
    (addTodo 5 rawAddState).todos = [{ id := 5, text := "  a  ", completed := false }] ∧
    ("  a  " : String) ≠ jsTrim "  a  " :=
  ⟨by decide, rfl, by decide⟩

/-! ### C2 -/

/-- C2 (amended): for every state and id, when the pending edit text is
non-empty after trimming, `saveEdit` replaces the text of each item whose
id matches with the raw (untrimmed) pending text, preserving that item's
id and `completed` flag, and leaves every item with a different id
unchanged. -/
theorem C2_edit_replaces_raw_text (s : TodoState) (id : Nat)
    (h : jsTrim s.editingText ≠ "") :
    (saveEdit id s).todos
      = s.todos.map fun t =>
          if t.id = id then { id := t.id, text := s.editingText, completed := t.completed }
          else t := by
  simp [saveEdit, h]

/-- C2 witness: the amended statement at a concrete one-item state. -/
theorem C2_edit_witness :
    (saveEdit 1 editCexState).todos = [{ id := 1, text := "  New  ", completed := false }] :=
  (C2_edit_replaces_raw_text editCexState 1 (by decide)).trans rfl

/-- C2 counterexample: the claim as stated is false — `edit(1, "  New  ")`
on an item sets its text to `"  New  "`, not to the trimmed `"New"`. -/
theorem C2_trim_counterexample :
    jsTrim "  New  " = "New" ∧ jsTrim "  New  " ≠ "" ∧
    (saveEdit 1 editCexState).todos = [{ id := 1, text := "  New  ", completed := false }] ∧
    ("  New  " : String) ≠ "New" :=
  ⟨rfl, by decide, rfl, by decide⟩

/-! ### C3 -/

/-- C3 (amended): in every reachable state whose ids are pairwise
distinct, `deleteTodo` of an absent id is a no-op, and `deleteTodo` of a
present id removes exactly the matching item while keeping every other
item in order, so the result has exactly one fewer item; in either case
the result has at most one fewer item. -/
theorem C3_remove_at_most_one (s : TodoState) (id : Nat)
    (hr : Reachable s) (hnd : (s.todos.map Todo.id).Nodup) :
    (id ∉ s.todos.map Todo.id → (deleteTodo id s).todos = s.todos) ∧
    (id ∈ s.todos.map Todo.id →
      ∃ l₁ t l₂, s.todos = l₁ ++ t :: l₂ ∧ t.id = id ∧
        (deleteTodo id s).todos = l₁ ++ l₂) ∧
    (id ∈ s.todos.map Todo.id → (deleteTodo id s).todos.length + 1 = s.todos.length) ∧
    s.todos.length ≤ (deleteTodo id s).todos.length + 1 := by
  refine ⟨fun hab => filter_ne_of_not_mem id s.todos hab,
          fun hin => filter_ne_decomp id s.todos hnd hin,
          fun hin => length_filter_ne_of_nodup id s.todos hnd hin, ?_⟩
  by_cases hin : id ∈ s.todos.map Todo.id
  · have := length_filter_ne_of_nodup id s.todos hnd hin
    show s.todos.length ≤ (s.todos.filter fun t => t.id != id).length + 1
    omega
  · have := congrArg List.length (filter_ne_of_not_mem id s.todos hin)
    show s.todos.length ≤ (s.todos.filter fun t => t.id != id).length + 1
    omega

/-- C3 witness: the amended statement at a concrete reachable two-item
state with distinct ids. -/
theorem C3_remove_witness :
    (1 ∉ twoItemState.todos.map Todo.id → (deleteTodo 1 twoItemState).todos = twoItemState.todos) ∧
    (1 ∈ twoItemState.todos.map Todo.id →
      ∃ l₁ t l₂, twoItemState.todos = l₁ ++ t :: l₂ ∧ t.id = 1 ∧
        (deleteTodo 1 twoItemState).todos = l₁ ++ l₂) ∧
    (1 ∈ twoItemState.todos.map Todo.id →
      (deleteTodo 1 twoItemState).todos.length + 1 = twoItemState.todos.length) ∧
    twoItemState.todos.length ≤ (deleteTodo 1 twoItemState).todos.length + 1 :=
  C3_remove_at_most_one twoItemState 1
    (.step (.add 2 "b") (.step (.add 1 "a") .init)) (by decide)

/-- C3 counterexample: the claim as stated is false — a state reachable by
two adds within the same millisecond holds two items with id 5, and a
single remove drops both, leaving two fewer items. -/
theorem C3_duplicate_counterexample :
    Reachable dupRunC3 ∧ dupRunC3.todos.length = 2 ∧
    (deleteTodo 5 dupRunC3).todos.length = 0 :=
  ⟨.step (.add 5 "b") (.step (.add 5 "a") .init), rfl, rfl⟩

/-! ### C4 -/

/-- C4 (amended): every id is unique in every state reachable from the
empty store when each `add` is performed with a clock reading distinct
from every id already present; uniqueness does not survive two adds
within the same millisecond (see the counterexample). -/
theorem C4_ids_nodup_of_fresh (s : TodoState) (h : FreshReachable s) :
    (s.todos.map Todo.id).Nodup := by
  induction h with
  | init => simp [initState]
  | @add s now input hs hf ih =>
    show ((addTodo now { s with inputValue := input }).todos.map Todo.id).Nodup
    by_cases hb : jsTrim input = ""
    · simpa [addTodo, hb] using ih
    · have hadd : (addTodo now { s with inputValue := input }).todos
          = s.todos ++ [{ id := now, text := input, completed := false }] := by
        simp [addTodo, hb]
      rw [hadd, List.map_append]
      exact nodup_append_singleton ih hf
  | @toggle s id hs ih =>
    show ((toggleTodo id s).todos.map Todo.id).Nodup
    rw [toggle_ids]
    exact ih
  | @remove s id hs ih =>
    show ((s.todos.filter fun t => t.id != id).map Todo.id).Nodup
    exact List.Nodup.sublist ((List.filter_sublist s.todos).map Todo.id) ih
  | @edit s id text hs ih =>
    show ((saveEdit id (startEdit id text s)).todos.map Todo.id).Nodup
    rw [saveEdit_ids]
    exact ih

/-- C4 witness: the amended statement at a concrete fresh two-add state. -/
theorem C4_ids_witness : (twoItemState.todos.map Todo.id).Nodup :=
  C4_ids_nodup_of_fresh twoItemState
    (.add 2 "b" (.add 1 "a" .init (by decide)) (by decide))

/-- C4 counterexample: the claim as stated is false — two adds within the
same millisecond (both drawing clock reading 7) yield a reachable state
whose id list `[7, 7]` is not unique. -/
theorem C4_collision_counterexample :
    Reachable dupRunC4 ∧ dupRunC4.todos.map Todo.id = [7, 7] ∧
    ¬(dupRunC4.todos.map Todo.id).Nodup :=
  ⟨.step (.add 7 "y") (.step (.add 7 "x") .init), rfl, by decide⟩

/-! ### C5 -/

/-- C5: in every reachable state, `total` equals the sequence length and
`completed + remaining = total`, where the three statistics are the
expressions rendered by the page.  (`completed` and `remaining` are by
definition the counts of items with `completed` true resp. false.) -/
theorem C5_stats_invariant (s : TodoState) (hr : Reachable s) :
    statsTotal s.todos = s.todos.length ∧
    statsCompleted s.todos + statsRemaining s.todos = statsTotal s.todos := by
  refine ⟨rfl, ?_⟩
  show (s.todos.filter fun t => t.completed).length
      + (s.todos.filter fun t => !t.completed).length = s.todos.length
  exact (@List.length_eq_length_filter_add Todo s.todos (fun t => t.completed)).symm

/-- C5 witness: the statistics invariant at a concrete three-step run. -/
theorem C5_stats_witness :
    statsTotal statsState.todos = statsState.todos.length ∧
    statsCompleted statsState.todos + statsRemaining statsState.todos
      = statsTotal statsState.todos :=
  C5_stats_invariant statsState
    (.step (.toggle 1) (.step (.add 2 "B") (.step (.add 1 "A") .init)))

/-! ### C6 -/

/-- C6: adding with input that is empty after trimming, or saving an edit
with pending text that is empty after trimming, leaves the whole state
unchanged (in particular the todo sequence) and signals nothing. -/
theorem C6_blank_input_noop (s s' : TodoState) (now id : Nat)
    (h1 : jsTrim s.inputValue = "") (h2 : jsTrim s'.editingText = "") :
    addTodo now s = s ∧ saveEdit id s' = s' :=
  ⟨by simp [addTodo, h1], by simp [saveEdit, h2]⟩

/-- A state whose input box holds only whitespace. -/
def blankAddState : TodoState := { initState with inputValue := "   " }

/-- A state editing item 1 with whitespace-only pending text. -/
def blankEditState : TodoState :=
  { todos := [⟨1, "x", false⟩], inputValue := "",
    editingId := some 1, editingText := " " }

/-- C6 witness: the no-op behaviour at concrete whitespace-only inputs. -/
theorem C6_blank_witness :
    addTodo 3 blankAddState = blankAddState ∧ saveEdit 1 blankEditState = blankEditState :=
  C6_blank_input_noop blankAddState blankEditState 3 1 (by decide) (by decide)

/-! ### C7 -/

/-- C7: toggling, removing or edit-saving an id not present in the
sequence leaves the sequence unchanged. -/
theorem C7_missing_id_noop (s : TodoState) (id : Nat)
    (h : id ∉ s.todos.map Todo.id) :
    (toggleTodo id s).todos = s.todos ∧ (deleteTodo id s).todos = s.todos ∧
    (saveEdit id s).todos = s.todos := by
  refine ⟨?_, filter_ne_of_not_mem id s.todos h, ?_⟩
  · show s.todos.map _ = s.todos
    exact map_id_of_not_mem id (fun t ht => if_neg ht) s.todos h
  · by_cases hb : jsTrim s.editingText = ""
    · simp [saveEdit, hb]
    · have hs : (saveEdit id s).todos
          = s.todos.map fun t => if t.id = id then { t with text := s.editingText } else t := by
        simp [saveEdit, hb]
      rw [hs]
      exact map_id_of_not_mem id (fun t ht => if_neg ht) s.todos h

/-- C7 witness: mutating the absent id 42 in a concrete two-item state. -/
theorem C7_missing_witness :
    (toggleTodo 42 twoItemState).todos = twoItemState.todos ∧
    (deleteTodo 42 twoItemState).todos = twoItemState.todos ∧
    (saveEdit 42 twoItemState).todos = twoItemState.todos :=
  C7_missing_id_noop twoItemState 42 (by decide)

/-! ### C8 -/

/-- C8 (amended): in every state whose ids are pairwise distinct and for
every id present, toggling twice restores the sequence exactly, and a
single toggle changes exactly the one matching item, flipping its
`completed` flag and preserving its id and text. -/
theorem C8_toggle_flips_one (s : TodoState) (id : Nat)
    (hnd : (s.todos.map Todo.id).Nodup) (hmem : id ∈ s.todos.map Todo.id) :
    (toggleTodo id (toggleTodo id s)).todos = s.todos ∧
    ∃ l₁ t l₂, s.todos = l₁ ++ t :: l₂ ∧ t.id = id ∧
      (toggleTodo id s).todos
        = l₁ ++ { id := t.id, text := t.text, completed := !t.completed } :: l₂ :=
  ⟨toggle_toggle_todos id s, toggle_decomp id s.todos hnd hmem⟩

/-- C8 witness: the amended statement at a concrete two-item state. -/
theorem C8_toggle_witness :
    (toggleTodo 2 (toggleTodo 2 twoItemState)).todos = twoItemState.todos ∧
    ∃ l₁ t l₂, twoItemState.todos = l₁ ++ t :: l₂ ∧ t.id = 2 ∧
      (toggleTodo 2 twoItemState).todos
        = l₁ ++ { id := t.id, text := t.text, completed := !t.completed } :: l₂ :=
  C8_toggle_flips_one twoItemState 2 (by decide) (by decide)

/-- C8 counterexample: the claim as stated is false — in a reachable state
holding two items with id 9, a single `toggle(9)` flips both items, so it
does not change "exactly that item and nothing else". -/
theorem C8_duplicate_counterexample :
    Reachable dupRunC8 ∧
    dupRunC8.todos = [⟨9, "a", false⟩, ⟨9, "b", false⟩] ∧
    (toggleTodo 9 dupRunC8).todos = [⟨9, "a", true⟩, ⟨9, "b", true⟩] ∧
    (toggleTodo 9 dupRunC8).todos ≠ [⟨9, "a", true⟩, ⟨9, "b", false⟩] ∧
    (toggleTodo 9 dupRunC8).todos ≠ [⟨9, "a", false⟩, ⟨9, "b", true⟩] :=
  ⟨.step (.add 9 "b") (.step (.add 9 "a") .init), rfl, rfl, by decide, by decide⟩

/-! ### C9 -/

/-- C9: `deleteTodo` removes every item whose id equals the argument: when
two or more items share that id, a single remove deletes all of them (at
least two fewer items), not exactly one, and no matching item remains. -/
theorem C9_remove_deletes_all_matching (s : TodoState) (id : Nat)
    (h : 2 ≤ (s.todos.filter fun t => t.id == id).length) :
    ((deleteTodo id s).todos.filter fun t => t.id == id) = [] ∧
    (deleteTodo id s).todos.length + (s.todos.filter fun t => t.id == id).length
      = s.todos.length ∧
    (deleteTodo id s).todos.length + 2 ≤ s.todos.length := by
  have h1 : ((deleteTodo id s).todos.filter fun t => t.id == id) = [] := by
    show ((s.todos.filter fun t => t.id != id).filter fun t => t.id == id) = []
    rw [List.filter_filter]
    have hp : (fun (t : Todo) => t.id == id && (t.id != id)) = fun _ => false := by
      funext t
      by_cases ht : t.id = id <;> simp [ht]
    simp [hp]
  have h2 : (deleteTodo id s).todos.length
      + (s.todos.filter fun t => t.id == id).length = s.todos.length := by
    show (s.todos.filter fun t => t.id != id).length
      + (s.todos.filter fun t => t.id == id).length = s.todos.length
    have hb : (fun (t : Todo) => t.id != id) = fun t => !(t.id == id) := rfl
    have := @List.length_eq_length_filter_add Todo s.todos (fun t => t.id == id)
    rw [hb]
    omega
  exact ⟨h1, h2, by omega⟩

/-- C9 witness: removing id 4 from a concrete reachable state holding two
items with id 4 and one with id 6 deletes both matching items. -/
theorem C9_remove_witness :
    ((deleteTodo 4 dupRunC9).todos.filter fun t => t.id == 4) = [] ∧
    (deleteTodo 4 dupRunC9).todos.length + (dupRunC9.todos.filter fun t => t.id == 4).length
      = dupRunC9.todos.length ∧
    (deleteTodo 4 dupRunC9).todos.length + 2 ≤ dupRunC9.todos.length :=
  C9_remove_deletes_all_matching dupRunC9 4 (by decide)

/-! ### C10 -/

/-- C10: when the pending edit text trims to empty, `saveEdit` leaves the
whole state unchanged (still in editing mode, same pending text, same
todos); when it trims non-empty, `saveEdit` leaves editing mode by
resetting `editingId` to `none` and `editingText` to `""`. -/
theorem C10_saveEdit_editing_mode (s : TodoState) (id : Nat) :
    (jsTrim s.editingText = "" → saveEdit id s = s) ∧
    (jsTrim s.editingText ≠ "" →
      (saveEdit id s).editingId = none ∧ (saveEdit id s).editingText = "") := by
  constructor
  · intro h
    simp [saveEdit, h]
  · intro h
    simp [saveEdit, h]

/-- A state editing item 1 with whitespace-only pending text. -/
def editingBlank : TodoState :=
  { todos := [⟨1, "a", false⟩], inputValue := "",
    editingId := some 1, editingText := "  " }

/-- A state editing item 1 with valid pending text. -/
def editingValid : TodoState :=
  { todos := [⟨1, "a", false⟩], inputValue := "",
    editingId := some 1, editingText := "ok" }

/-- C10 witness: both branches at concrete editing states. -/
theorem C10_saveEdit_witness :
    saveEdit 1 editingBlank = editingBlank ∧
    ((saveEdit 1 editingValid).editingId = none ∧ (saveEdit 1 editingValid).editingText = "") :=
  ⟨(C10_saveEdit_editing_mode editingBlank 1).1 (by decide),
   (C10_saveEdit_editing_mode editingValid 1).2 (by decide)⟩
